import Mathlib

/-!
Shallow embedding of `src/data_cleaner.py` (class `DataCleaner`): a pandas-based
sequential data-cleaning pipeline over tabular data.

Modelling conventions:
* A pandas `DataFrame` is a `Dataset`: column names, per-column inferred dtypes,
  and row-major cell data.  A cell is missing (`NaN`), an integer, a string, or
  an (abstract) timestamp.  Numeric values are modelled by `Int` (the int/float
  distinction of pandas is below this abstraction; values compare numerically).
* Python string methods `.strip()`, `.lower()`, `.replace(" ", "_")` are
  modelled character-wise over `List Char`; `.lower()` is modelled on its ASCII
  fragment (A-Z ↦ a-z, everything else fixed).
* `raise ValueError(...)` is modelled by `Except CleanError`; the distinct
  error messages of the script are the constructors of `CleanError`.
* File I/O is modelled by passing the serialized file content (`SavedFile`)
  explicitly: `save_data` returns the content written, `load_data` receives the
  content found at the cleaner's path.  `pd.read_csv` type inference is
  modelled per column: fields matching pandas' default `na_values` list load
  as missing; a column whose remaining entries all parse as integers (after
  stripping) is numeric with integer values, one whose entries are all
  float-shaped (finite decimals, exponents, or the nan/inf words) is numeric
  with exact-decimal values, one whose entries are all `True`/`False` words is
  boolean, and anything else is object, kept verbatim.
* `print` calls are side effects outside the model and are dropped.
-/

/-- Model of a single pandas cell value.  `real m k` is the float64 value that
prints as the exact decimal m·10^(-k) (binary rounding of float64 is below this
abstraction; the values the claims inspect are integers and strings). -/
inductive Cell where
  | missing
  | num (n : Int)
  | str (s : String)
  | date (t : Int)
  | real (m : Int) (k : Nat)
  | boolean (b : Bool)
deriving DecidableEq

/-- Model of a pandas column dtype, at the granularity the script observes
(`select_dtypes(exclude=[np.number])`, `select_dtypes(include=['object'])`,
datetime columns produced by `pd.to_datetime`, and bool columns, which
`np.number` excludes). -/
inductive Dtype where
  | numeric
  | object
  | datetime
  | boolean
deriving DecidableEq

/-- Model of the distinct `ValueError`s raised by `data_cleaner.py`, plus
`parseMismatch` for handing a file of the wrong format to a reader (a modelling
artifact of passing file contents explicitly). -/
inductive CleanError where
  | notLoaded
  | unsupportedFormat (ext : String)
  | missingArgument
  | parseMismatch
deriving DecidableEq

/-- Model of a pandas `DataFrame`: named columns with inferred dtypes, row-major
cells.  Well-formed datasets have `dtypes.length = names.length` and every row
of length `dtypes.length` (see `Dataset.wfB`). -/
structure Dataset where
  names : List String
  dtypes : List Dtype
  rows : List (List Cell)
deriving DecidableEq

/-- Model of the `DataCleaner` object: the constructor stores a file path and
sets `self.data = None`. -/
structure DataCleaner where
  file : String
  data : Option Dataset
deriving DecidableEq

/-- Cell at row `i`, column `j` (missing when out of range). -/
def Dataset.cell (d : Dataset) (i j : Nat) : Cell :=
  ((d.rows[i]?).bind (fun r => r[j]?)).getD Cell.missing

/-! ### Python character/string primitives -/

/-- Model of Python `str.lower` on a character (ASCII fragment). -/
def lowerChar (c : Char) : Char :=
  if 65 ≤ c.toNat ∧ c.toNat ≤ 90 then Char.ofNat (c.toNat + 32) else c

/-- Model of Python `str.lower`. -/
def lowerString (s : String) : String :=
  ⟨s.data.map lowerChar⟩

/-- The substitution performed by `.replace(" ", "_")`, character-wise. -/
def subUnderscore (c : Char) : Char :=
  if c = ' ' then '_' else c

/-- Model of Python `str.strip` over the character list: drop whitespace from
both ends. -/
def pyStrip (l : List Char) : List Char :=
  ((l.dropWhile Char.isWhitespace).reverse.dropWhile Char.isWhitespace).reverse

/-- Model of Python `str.strip` on a `String`. -/
def pyStripStr (s : String) : String :=
  ⟨pyStrip s.data⟩

/-- Model of `col.strip().lower().replace(" ", "_")` from
`standardize_columns` (line 44 of `data_cleaner.py`). -/
def standardizeName (s : String) : String :=
  ⟨(pyStrip s.data).map (fun c => subUnderscore (lowerChar c))⟩

/-! ### Decimal printing and parsing of integers

Python's `str(int)` and the integer-recognition step of pandas' CSV type
inference, modelled from first principles so that the round trip is provable. -/

/-- The decimal digit character for `d < 10`. -/
def digitChar (d : Nat) : Char :=
  match d with
  | 0 => '0' | 1 => '1' | 2 => '2' | 3 => '3' | 4 => '4'
  | 5 => '5' | 6 => '6' | 7 => '7' | 8 => '8' | _ => '9'

/-- Decimal digits of a natural number, most significant first. -/
def natToDigits (n : Nat) : List Char :=
  if _h : n < 10 then [digitChar n]
  else natToDigits (n / 10) ++ [digitChar (n % 10)]
termination_by n
decreasing_by exact Nat.div_lt_self (by omega) (by omega)

/-- Model of Python `str` on an integer. -/
def intToStr (n : Int) : String :=
  if n < 0 then ⟨'-' :: natToDigits (-n).toNat⟩ else ⟨natToDigits n.toNat⟩

/-- Numeric value of a decimal digit character. -/
def digitVal? (c : Char) : Option Nat :=
  if 48 ≤ c.toNat ∧ c.toNat ≤ 57 then some (c.toNat - 48) else none

/-- Accumulating decimal parser over characters. -/
def digitsValAux (l : List Char) (acc : Nat) : Option Nat :=
  match l with
  | [] => some acc
  | c :: cs =>
    match digitVal? c with
    | some d => digitsValAux cs (acc * 10 + d)
    | none => none

/-- Parse a non-empty all-digit character list as a natural number. -/
def digitsVal? (l : List Char) : Option Nat :=
  match l with
  | [] => none
  | _ => digitsValAux l 0

/-- Model of the integer-string recognition used by pandas CSV type
inference: an optional leading minus sign followed by decimal digits. -/
def parseInt? (s : String) : Option Int :=
  match s.data with
  | [] => none
  | c :: cs =>
    if c = '-' then (digitsVal? cs).map (fun n => -(n : Int))
    else (digitsVal? (c :: cs)).map (fun n => (n : Int))

/-! ### pandas field recognizers: NA strings, floats, booleans -/

/-- The default `na_values` list of `pd.read_csv` / `pd.read_excel`: fields
equal to one of these load as missing. -/
def naStrings : List String :=
  ["", "#N/A", "#N/A N/A", "#NA", "-1.#IND", "-1.#QNAN", "-NaN", "-nan",
   "1.#IND", "1.#QNAN", "<NA>", "N/A", "NA", "NULL", "NaN", "None",
   "n/a", "nan", "null"]

/-- Is the field one of pandas' default NA codes (exact match)? -/
def isNaString (s : String) : Bool :=
  decide (s ∈ naStrings)

/-- Model of the boolean words the pandas CSV parser converts
(`True`/`TRUE`/`False`/`FALSE`, exactly). -/
def parseBool? (s : String) : Option Bool :=
  if s = "True" ∨ s = "TRUE" then some true
  else if s = "False" ∨ s = "FALSE" then some false
  else none

/-- Unsigned decimal mantissa `digits[.digits]`: its value and the number of
fractional digits. -/
def parseMant? (l : List Char) : Option (Nat × Nat) :=
  match l.splitOn '.' with
  | [a] => (digitsVal? a).map (fun v => (v, 0))
  | [a, b] =>
    if a = [] then (digitsVal? b).map (fun v => (v, b.length))
    else if b = [] then (digitsVal? a).map (fun v => (v, 0))
    else
      match digitsVal? a, digitsVal? b with
      | some va, some vb => some (va * 10 ^ b.length + vb, b.length)
      | _, _ => none
  | _ => none

/-- Optionally signed exponent digits of scientific notation. -/
def parseExp? (l : List Char) : Option Int :=
  match l with
  | '+' :: r => (digitsVal? r).map (fun v => (v : Int))
  | '-' :: r => (digitsVal? r).map (fun v => -(v : Int))
  | r => (digitsVal? r).map (fun v => (v : Int))

/-- Remove trailing zero digits of the decimal m·10^(-k). -/
def normDec : Int → Nat → Int × Nat
  | m, 0 => (m, 0)
  | m, k + 1 =>
    if m = 0 then (0, 0)
    else if m % 10 = 0 then normDec (m / 10) k
    else (m, k + 1)

/-- Model of the pandas CSV float recognizer on finite decimals: optional
sign, decimal mantissa, optional exponent (case-insensitive); the value is the
exact decimal m·10^(-k). -/
def parseFloatDec? (s : String) : Option (Int × Nat) :=
  let l := (lowerString s).data
  let sb : Int × List Char :=
    match l with
    | '-' :: r => (-1, r)
    | '+' :: r => (1, r)
    | r => (1, r)
  match sb.2.splitOn 'e' with
  | [mant] => (parseMant? mant).map (fun p => normDec (sb.1 * (p.1 : Int)) p.2)
  | [mant, ex] =>
    match parseMant? mant, parseExp? ex with
    | some p, some e =>
      let t : Int := e - (p.2 : Int)
      if 0 ≤ t then some (sb.1 * (p.1 : Int) * 10 ^ t.toNat, 0)
      else some (normDec (sb.1 * (p.1 : Int)) (-t).toNat)
    | _, _ => none
  | _ => none

/-- The nan/inf words the pandas float converter also accepts (an optionally
signed `nan`, `inf` or `infinity`, case-insensitive).  IEEE specials have no
`Cell` value; the shape only matters for recognizing what is not kept as
text. -/
def specialFloatWord (s : String) : Bool :=
  let l := (lowerString s).data
  let body : List Char :=
    match l with
    | '-' :: r => r
    | '+' :: r => r
    | r => r
  decide (body = "nan".data) || decide (body = "inf".data)
    || decide (body = "infinity".data)

/-- A field the pandas float converter would turn into a float64. -/
def floatShape (s : String) : Bool :=
  (parseFloatDec? s).isSome || specialFloatWord s

/-! ### File content model and `os.path.splitext` -/

/-- Serialized file content, as written by `to_csv` / `to_excel` and read by
`read_csv` / `read_excel`.  CSV is untyped text (quoting of separators is below
the model: rows are kept pre-split); Excel stores typed cells. -/
inductive SavedFile where
  | csv (header : List String) (dataRows : List (List String))
  | excel (header : List String) (rows : List (List Cell))
deriving DecidableEq

/-- Index of the last occurrence of `c` in `l`, as in Python `str.rfind`. -/
def lastIndexOf (l : List Char) (c : Char) : Option Nat :=
  ((l.enum.filter (fun p => p.2 = c)).map Prod.fst).getLast?

/-- Model of `os.path.splitext(p)[1]` (generic CPython algorithm with
separator `/`): the suffix from the last dot, provided that dot lies after the
last separator and after at least one non-dot character of the basename. -/
def splitextExt (p0 : String) : String :=
  let p := p0.data
  let sepIdx : Int := match lastIndexOf p '/' with | some i => (i : Int) | none => -1
  let dotIdx : Int := match lastIndexOf p '.' with | some i => (i : Int) | none => -1
  if sepIdx < dotIdx then
    if (List.range p.length).any
        (fun k => decide (sepIdx < (k : Int)) && decide ((k : Int) < dotIdx)
          && decide (p.getD k '.' ≠ '.')) then
      ⟨p.drop dotIdx.toNat⟩
    else ""
  else ""

/-- Lowercased extension, `os.path.splitext(p)[1].lower()` (lines 14, 86). -/
def lowExt (p : String) : String :=
  lowerString (splitextExt p)

/-! ### pandas CSV reading/writing model -/

/-- Left-pad a digit list with zeros to length `k`. -/
def padZeros (l : List Char) (k : Nat) : List Char :=
  List.replicate (k - l.length) '0' ++ l

/-- Decimal rendering of the float64 value m·10^(-k), as Python prints a
float: a sign, the integer part, a dot, the fractional digits (`.0` when
integral). -/
def decStr (m : Int) (k : Nat) : String :=
  let a := m.natAbs
  let sgn : List Char := if m < 0 then ['-'] else []
  if k = 0 then ⟨sgn ++ natToDigits a ++ ['.', '0']⟩
  else ⟨sgn ++ natToDigits (a / 10 ^ k) ++ '.' :: padZeros (natToDigits (a % 10 ^ k)) k⟩

/-- How `to_csv` renders one cell: missing prints empty, numbers in decimal,
strings verbatim, booleans as Python booleans; abstract timestamps print their
code. -/
def serializeCell : Cell → String
  | Cell.missing => ""
  | Cell.num n => intToStr n
  | Cell.str s => s
  | Cell.date t => intToStr t
  | Cell.real m k => decStr m k
  | Cell.boolean b => if b then "True" else "False"

/-- Entries of CSV column `j` (rows are rectangular in well-formed files). -/
def csvColEntries (dataRows : List (List String)) (j : Nat) : List String :=
  dataRows.map (fun r => r.getD j "")

/-- Dtype inferred by `read_csv` for one column, following the int, float,
bool, object cascade of the pandas parser: numeric when every entry is an NA
code or an integer (after stripping), numeric (float64) when every entry is an
NA code or float-shaped, boolean when every entry is a boolean word, object
otherwise. -/
def csvInferDtype (entries : List String) : Dtype :=
  if entries.all (fun s => isNaString s || (parseInt? (pyStripStr s)).isSome) then
    Dtype.numeric
  else if entries.all (fun s => isNaString s || floatShape (pyStripStr s)) then
    Dtype.numeric
  else if entries.all (fun s => (parseBool? s).isSome) then Dtype.boolean
  else Dtype.object

/-- Cell produced by `read_csv` from one raw entry, given the column's
inferred dtype: NA codes load as missing, numeric columns parse integers and
finite decimals, boolean columns parse the boolean words, everything else is
kept verbatim (IEEE specials, which have no `Cell` value, fall back to the
text). -/
def csvConvCell (dt : Dtype) (s : String) : Cell :=
  if isNaString s then Cell.missing
  else
    match dt with
    | Dtype.numeric =>
      match parseInt? (pyStripStr s) with
      | some n => Cell.num n
      | none =>
        match parseFloatDec? (pyStripStr s) with
        | some p => Cell.real p.1 p.2
        | none => Cell.str s
    | Dtype.boolean =>
      match parseBool? s with
      | some b => Cell.boolean b
      | none => Cell.str s
    | _ => Cell.str s

/-- Model of `pd.read_csv`: infer one dtype per header column, then convert
every field. -/
def readCsv (header : List String) (dataRows : List (List String)) : Dataset :=
  let dtypes := (List.range header.length).map
    (fun j => csvInferDtype (csvColEntries dataRows j))
  { names := header
    dtypes := dtypes
    rows := dataRows.map (fun r => List.zipWith csvConvCell dtypes r) }

/-- Reading back an Excel cell: text matching the default NA codes (the empty
string included) comes back as missing, everything else is typed storage. -/
def excelLoadCell (x : Cell) : Cell :=
  match x with
  | Cell.str s => if isNaString s then Cell.missing else Cell.str s
  | c => c

/-- True for cells a numeric column may hold. -/
def isNumOrMissing : Cell → Bool
  | Cell.missing => true
  | Cell.num _ => true
  | Cell.real _ _ => true
  | _ => false

/-- True for cells a datetime column may hold. -/
def isDateOrMissing : Cell → Bool
  | Cell.missing => true
  | Cell.date _ => true
  | _ => false

/-- True for cells a bool column may hold. -/
def isBoolOrMissing : Cell → Bool
  | Cell.missing => true
  | Cell.boolean _ => true
  | _ => false

/-- Dtype `read_excel` infers for a column from its typed cells. -/
def inferCellsDtype (cells : List Cell) : Dtype :=
  if cells.all isNumOrMissing then Dtype.numeric
  else if cells.all isDateOrMissing then Dtype.datetime
  else if cells.all isBoolOrMissing then Dtype.boolean
  else Dtype.object

/-- Model of `pd.read_excel`. -/
def readExcel (header : List String) (rows0 : List (List Cell)) : Dataset :=
  let rows := rows0.map (fun r => r.map excelLoadCell)
  { names := header
    dtypes := (List.range header.length).map
      (fun j => inferCellsDtype (rows.map (fun r => r.getD j Cell.missing)))
    rows := rows }

/-! ### The seven methods of `DataCleaner` -/

/-- Model of `DataCleaner.load_data` (lines 12-22): dispatch on the lowercased
extension of `self.file`; `file` is the content found at that path. -/
def load_data (c : DataCleaner) (file : SavedFile) : Except CleanError DataCleaner :=
  let ext := lowExt c.file
  if ext = ".csv" then
    match file with
    | SavedFile.csv h rows => Except.ok { c with data := some (readCsv h rows) }
    | _ => Except.error CleanError.parseMismatch
  else if ext = ".xlsx" ∨ ext = ".xls" then
    match file with
    | SavedFile.excel h rows => Except.ok { c with data := some (readExcel h rows) }
    | _ => Except.error CleanError.parseMismatch
  else Except.error (CleanError.unsupportedFormat ext)

/-- True when a row contains no missing cell (`dropna` keeps such rows). -/
def rowComplete (r : List Cell) : Bool :=
  r.all (fun x => match x with | Cell.missing => false | _ => true)

/-- Per-cell effect of `fillna(v)` on a column of dtype `dt`, as performed on
the columns of `select_dtypes(exclude=[np.number])` (lines 34-36). -/
def fillCellD (v : Cell) (dt : Dtype) (x : Cell) : Cell :=
  if dt = Dtype.numeric then x
  else if x = Cell.missing then v else x

/-- Model of `DataCleaner.handle_missing_values` (lines 23-37). -/
def handle_missing_values (c : DataCleaner) (method : String) (fill_value : Option Cell) :
    Except CleanError DataCleaner :=
  match c.data with
  | none => Except.error CleanError.notLoaded
  | some d =>
    if method = "drop" then
      Except.ok { c with data := some { d with rows := d.rows.filter rowComplete } }
    else if method = "fill" then
      match fill_value with
      | none => Except.error CleanError.missingArgument
      | some v =>
        let d2 := { d with rows := d.rows.map (fun r => List.zipWith (fillCellD v) d.dtypes r) }
        Except.ok { c with data := some d2 }
    else Except.ok c

/-- Model of `DataCleaner.standardize_columns` (lines 38-45). -/
def standardize_columns (c : DataCleaner) : Except CleanError DataCleaner :=
  match c.data with
  | none => Except.error CleanError.notLoaded
  | some d =>
    Except.ok { c with data := some { d with names := d.names.map standardizeName } }

/-- Accumulator version of pandas `drop_duplicates`: keep a row iff it has not
been seen before. -/
def dedupFirstAux {α : Type} [DecidableEq α] (seen : List α) : List α → List α
  | [] => []
  | x :: xs =>
    if x ∈ seen then dedupFirstAux seen xs
    else x :: dedupFirstAux (x :: seen) xs

/-- Model of `DataFrame.drop_duplicates` on the row list: drop every row equal
to an earlier row (missing cells compare equal, matching pandas). -/
def dedupFirst {α : Type} [DecidableEq α] (l : List α) : List α :=
  dedupFirstAux [] l

/-- Model of `DataCleaner.remove_duplicates` (lines 46-54). -/
def remove_duplicates (c : DataCleaner) : Except CleanError DataCleaner :=
  match c.data with
  | none => Except.error CleanError.notLoaded
  | some d =>
    Except.ok { c with data := some { d with rows := dedupFirst d.rows } }

/-! ### `convert_data_types` -/

/-- True when the column name contains the substring `date`, case-insensitively
(`'date' in col.lower()`, line 65). -/
def isDateName (s : String) : Bool :=
  (List.range ((lowerString s).data.length + 1)).any
    (fun i => List.isPrefixOf "date".data ((lowerString s).data.drop i))

/-- Model of `DataFrame.convert_dtypes` (line 62) at the granularity of
`Dtype`: an object column actually holding only numbers (with possible gaps)
is refined to numeric; cell values are unchanged. -/
def convertDtypes (d : Dataset) : Dataset :=
  { d with dtypes := (List.range d.dtypes.length).map (fun j =>
      match d.dtypes.getD j Dtype.object with
      | Dtype.object =>
        if (d.rows.map (fun r => r.getD j Cell.missing)).all isNumOrMissing then
          Dtype.numeric
        else Dtype.object
      | dt => dt) }

/-- Parse a decimal field of exactly the given digits as a number. -/
def parseNatField? (l : List Char) : Option Nat :=
  digitsVal? l

/-- Model of the date shapes `pd.to_datetime` accepts from strings: ISO
`YYYY-MM-DD`, encoded into a single abstract timestamp code. -/
def parseYMD? (s : String) : Option Int :=
  match s.data.splitOn '-' with
  | [y, m, dy] =>
    match parseNatField? y, parseNatField? m, parseNatField? dy with
    | some yn, some mn, some dn =>
      if 1 ≤ mn ∧ mn ≤ 12 ∧ 1 ≤ dn ∧ dn ≤ 31 then
        some ((yn : Int) * 10000 + (mn : Int) * 100 + (dn : Int))
      else none
    | _, _, _ => none
  | _ => none

/-- Model of `pd.to_datetime` on one cell: missing becomes `NaT` (kept as
missing), numbers are epoch offsets (always accepted), strings must parse as
dates, timestamps pass through. -/
def parseDateCell : Cell → Option Cell
  | Cell.missing => some Cell.missing
  | Cell.num n => some (Cell.date n)
  | Cell.date t => some (Cell.date t)
  | Cell.str s => (parseYMD? s).map Cell.date
  | Cell.real m _ => some (Cell.date m)
  | Cell.boolean _ => none

/-- The cells of column `j`. -/
def colCells (d : Dataset) (j : Nat) : List Cell :=
  d.rows.map (fun r => r.getD j Cell.missing)

/-- Outcome of `pd.to_datetime(self.data[col])` for column `j`: `none` both
when the column is not date-named and when parsing raises (the `except
Exception: pass` of lines 68-69); `some` carries the converted column. -/
def dateColResult (d : Dataset) (j : Nat) : Option (List Cell) :=
  if isDateName (d.names.getD j "") then (colCells d j).mapM parseDateCell
  else none

/-- The date-parsing loop of lines 64-69, applied over all columns (columns are
independent, so the sequential in-place loop is a simultaneous update). -/
def applyDatePass (d : Dataset) : Dataset :=
  { d with
    dtypes := (List.range d.dtypes.length).map (fun j =>
      if (dateColResult d j).isSome then Dtype.datetime else d.dtypes.getD j Dtype.object)
    rows := d.rows.mapIdx (fun i r => r.mapIdx (fun j x =>
      match dateColResult d j with
      | some cs => cs.getD i Cell.missing
      | none => x)) }

/-- Model of `DataCleaner.convert_data_types` (lines 56-70). -/
def convert_data_types (c : DataCleaner) : Except CleanError DataCleaner :=
  match c.data with
  | none => Except.error CleanError.notLoaded
  | some d => Except.ok { c with data := some (applyDatePass (convertDtypes d)) }

/-! ### `normalize_categoricals` and `save_data` -/

/-- Model of Python `str()` applied to a cell by `astype(str)`: `NaN` prints
as the literal text `nan`. -/
def cellToPyStr : Cell → String
  | Cell.missing => "nan"
  | Cell.num n => intToStr n
  | Cell.str s => s
  | Cell.date t => intToStr t
  | Cell.real m k => decStr m k
  | Cell.boolean b => if b then "True" else "False"

/-- Per-cell effect of `astype(str).str.strip().str.lower()` (line 78). -/
def normalizeCell (x : Cell) : Cell :=
  Cell.str ⟨(pyStrip (cellToPyStr x).data).map lowerChar⟩

/-- Model of `DataCleaner.normalize_categoricals` (lines 71-80): rewrite every
cell of every object-dtype column. -/
def normalize_categoricals (c : DataCleaner) : Except CleanError DataCleaner :=
  match c.data with
  | none => Except.error CleanError.notLoaded
  | some d =>
    let d2 := { d with rows := d.rows.map (fun r =>
      List.zipWith (fun dt x => if dt = Dtype.object then normalizeCell x else x) d.dtypes r) }
    Except.ok { c with data := some d2 }

/-- Model of `DataCleaner.save_data` (lines 81-94): returns the file content
written at `output_file`. -/
def save_data (c : DataCleaner) (output_file : String) : Except CleanError SavedFile :=
  match c.data with
  | none => Except.error CleanError.notLoaded
  | some d =>
    let ext := lowExt output_file
    if ext = ".csv" then
      Except.ok (SavedFile.csv d.names (d.rows.map (fun r => r.map serializeCell)))
    else if ext = ".xlsx" ∨ ext = ".xls" then
      Except.ok (SavedFile.excel d.names d.rows)
    else Except.error (CleanError.unsupportedFormat ext)

/-! ### Well-formedness and losslessness predicates -/

/-- Does a cell fit a column dtype (the invariant pandas maintains per
column)? -/
def cellFits : Dtype → Cell → Bool
  | _, Cell.missing => true
  | Dtype.numeric, Cell.num _ => true
  | Dtype.numeric, Cell.real _ _ => true
  | Dtype.object, Cell.str _ => true
  | Dtype.datetime, Cell.date _ => true
  | Dtype.boolean, Cell.boolean _ => true
  | _, _ => false

/-- One row is rectangular and dtype-consistent. -/
def rowFits (dtypes : List Dtype) (r : List Cell) : Bool :=
  r.length == dtypes.length && (List.zipWith cellFits dtypes r).all (fun b => b)

/-- Structural well-formedness of a dataset. -/
def Dataset.wfB (d : Dataset) : Bool :=
  (d.dtypes.length == d.names.length) && d.rows.all (rowFits d.dtypes)

/-- The dataset obtained by loading the spec's example CSV (header
`Name, Age `, rows `Alice,` and `alice,30`). -/
def exampleDataset : Dataset :=
  readCsv ["Name", " Age "] [["Alice", ""], ["alice", "30"]]

/-- A cleaner that has loaded `exampleDataset` from `input.csv`. -/
def exampleCleaner : DataCleaner :=
  { file := "input.csv", data := some exampleDataset }

/-- The dataset of an `Except` pipeline stage, if the stage succeeded. -/
def stageData (e : Except CleanError DataCleaner) : Option Dataset :=
  match e with
  | Except.ok c => c.data
  | Except.error _ => none

/-! ### Claim C6 -/

/-- C6: with no Dataset loaded, every transformation operation
(`handle_missing_values`, `standardize_columns`, `remove_duplicates`,
`convert_data_types`, `normalize_categoricals`) and `save_data` fails with the
`NotLoaded` error. -/
theorem C6_requires_loaded (c : DataCleaner) (h : c.data = none) :
    (∀ m v, handle_missing_values c m v = Except.error CleanError.notLoaded) ∧
    standardize_columns c = Except.error CleanError.notLoaded ∧
    remove_duplicates c = Except.error CleanError.notLoaded ∧
    convert_data_types c = Except.error CleanError.notLoaded ∧
    normalize_categoricals c = Except.error CleanError.notLoaded ∧
    (∀ p, save_data c p = Except.error CleanError.notLoaded) := by
  refine ⟨fun m v => ?_, ?_, ?_, ?_, ?_, fun p => ?_⟩ <;>
    simp [handle_missing_values, standardize_columns, remove_duplicates,
      convert_data_types, normalize_categoricals, save_data, h]

/-- Witness for C6 at a concrete unloaded cleaner. -/
theorem C6_requires_loaded_witness :
    handle_missing_values { file := "a.csv", data := none } "drop" none
      = Except.error CleanError.notLoaded ∧
    standardize_columns { file := "a.csv", data := none }
      = Except.error CleanError.notLoaded ∧
    save_data { file := "a.csv", data := none } "out.csv"
      = Except.error CleanError.notLoaded :=
  ⟨(C6_requires_loaded { file := "a.csv", data := none } rfl).1 "drop" none,
   (C6_requires_loaded { file := "a.csv", data := none } rfl).2.1,
   (C6_requires_loaded { file := "a.csv", data := none } rfl).2.2.2.2.2 "out.csv"⟩

/-! ### Claim C7 -/

/-- C7: for any path whose lowercased extension is outside
`{.csv, .xlsx, .xls}`, `load_data` (on a cleaner holding that path) and
`save_data` (on a loaded cleaner, to that path) fail with the
`UnsupportedFormat` error carrying that extension. -/
theorem C7_unsupported_format (c : DataCleaner) (d : Dataset) (p : String) (f : SavedFile)
    (hq1 : lowExt c.file ≠ ".csv") (hq2 : lowExt c.file ≠ ".xlsx") (hq3 : lowExt c.file ≠ ".xls")
    (hp1 : lowExt p ≠ ".csv") (hp2 : lowExt p ≠ ".xlsx") (hp3 : lowExt p ≠ ".xls")
    (hd : c.data = some d) :
    load_data c f = Except.error (CleanError.unsupportedFormat (lowExt c.file)) ∧
    save_data c p = Except.error (CleanError.unsupportedFormat (lowExt p)) := by
  constructor
  · simp [load_data, hq1, hq2, hq3]
  · simp [save_data, hd, hp1, hp2, hp3]

/-- Witness for C7: `load` on `file.json` and `save` to `out.json` both fail
with `UnsupportedFormat ".json"`. -/
theorem C7_unsupported_format_witness :
    load_data { file := "file.json", data := some exampleDataset } (SavedFile.csv [] [])
      = Except.error (CleanError.unsupportedFormat ".json") ∧
    save_data { file := "file.json", data := some exampleDataset } "out.json"
      = Except.error (CleanError.unsupportedFormat ".json") := by
  have h := C7_unsupported_format { file := "file.json", data := some exampleDataset }
    exampleDataset "out.json" (SavedFile.csv [] [])
    (by decide) (by decide) (by decide) (by decide) (by decide) (by decide) rfl
  have e1 : lowExt "file.json" = ".json" := by decide
  have e2 : lowExt "out.json" = ".json" := by decide
  rw [e1, e2] at h
  exact h

/-! ### Claim C9 -/

/-- C9: on a loaded cleaner, `handle_missing_values` with a method other than
`drop` or `fill` is a silent no-op (returns the cleaner unchanged, raising
nothing); and it raises an error if and only if the data is not loaded, or the
method is `fill` with no fill value. -/
theorem C9_handle_missing_error_contract (c : DataCleaner) (m : String) (v : Option Cell) :
    (c.data.isSome = true → m ≠ "drop" → m ≠ "fill" →
      handle_missing_values c m v = Except.ok c) ∧
    ((∃ e, handle_missing_values c m v = Except.error e) ↔
      (c.data = none ∨ (m = "fill" ∧ v = none))) := by
  cases hd : c.data with
  | none => simp [handle_missing_values, hd]
  | some d =>
    constructor
    · intro _ h1 h2
      simp [handle_missing_values, hd, h1, h2]
    · by_cases h1 : m = "drop"
      · simp [handle_missing_values, hd, h1]
      · by_cases h2 : m = "fill"
        · cases v <;> simp [handle_missing_values, hd, h1, h2]
        · simp [handle_missing_values, hd, h1, h2]

/-- Witness for C9: an unrecognized method on a loaded cleaner is a no-op. -/
theorem C9_handle_missing_error_contract_witness :
    handle_missing_values exampleCleaner "impute" none = Except.ok exampleCleaner :=
  (C9_handle_missing_error_contract exampleCleaner "impute" none).1
    (by decide) (by decide) (by decide)

/-! ### Cell-access helpers for column-dtype rewrites -/

/-- A well-formed dataset has rectangular rows matching the dtype list. -/
theorem wfB_row_length (d : Dataset) (hwf : d.wfB = true) (r : List Cell) (hr : r ∈ d.rows) :
    r.length = d.dtypes.length := by
  simp only [Dataset.wfB, Bool.and_eq_true, List.all_eq_true, rowFits, beq_iff_eq] at hwf
  exact (hwf.2 r hr).1

/-- Pointwise content of a `zipWith` over the dtype list. -/
theorem zipWith_dtypes_getElem? {γ : Type} (g : Dtype → Cell → γ) (dts : List Dtype)
    (r : List Cell) (j : Nat) (dt : Dtype) (x : Cell)
    (hj : dts[j]? = some dt) (hx : r[j]? = some x) :
    (List.zipWith g dts r)[j]? = some (g dt x) := by
  simp [List.getElem?_zipWith', hj, hx]

/-- In-range positions of a list carry a value. -/
theorem exists_getElem?_eq_some {α : Type} (l : List α) (n : Nat) (h : n < l.length) :
    ∃ a, l[n]? = some a := by
  cases hx : l[n]? with
  | none =>
    rw [List.getElem?_eq_none_iff] at hx
    omega
  | some a => exact ⟨a, rfl⟩

/-! ### Claim C1 -/

/-- C1: on a loaded dataset, `handle_missing_values "fill" v` replaces exactly
the missing cells of the non-numeric (by inferred dtype) columns with `v`, and
leaves every cell of every numeric column — missing ones included — unchanged. -/
theorem C1_fill_non_numeric_only (c : DataCleaner) (d : Dataset) (v : Cell)
    (h : c.data = some d) (hwf : d.wfB = true) :
    ∃ d', handle_missing_values c "fill" (some v) = Except.ok { c with data := some d' } ∧
      d'.names = d.names ∧ d'.dtypes = d.dtypes ∧ d'.rows.length = d.rows.length ∧
      ∀ j dt, d.dtypes[j]? = some dt →
        (dt = Dtype.numeric → ∀ i, d'.cell i j = d.cell i j) ∧
        (dt ≠ Dtype.numeric → ∀ i, i < d.rows.length →
          (d.cell i j = Cell.missing → d'.cell i j = v) ∧
          (d.cell i j ≠ Cell.missing → d'.cell i j = d.cell i j)) := by
  refine ⟨{ d with rows := d.rows.map (fun r => List.zipWith (fillCellD v) d.dtypes r) },
    by simp [handle_missing_values, h], rfl, rfl, by simp, ?_⟩
  intro j dt hj
  have hjlt : j < d.dtypes.length := by
    rcases List.getElem?_eq_some.mp hj with ⟨hlt, _⟩; exact hlt
  constructor
  · rintro rfl i
    cases hi : d.rows[i]? with
    | none => simp [Dataset.cell, hi, List.getElem?_map]
    | some r =>
      have hr : r ∈ d.rows := List.getElem?_mem hi
      have hlen : r.length = d.dtypes.length := wfB_row_length d hwf r hr
      obtain ⟨x, hx⟩ : ∃ x, r[j]? = some x :=
        exists_getElem?_eq_some r j (by omega)
      have hz := zipWith_dtypes_getElem? (fillCellD v) d.dtypes r j Dtype.numeric x hj hx
      simp [Dataset.cell, hi, List.getElem?_map, hz, hx, fillCellD]
  · intro hdt i hilt
    obtain ⟨r, hi⟩ : ∃ r, d.rows[i]? = some r :=
      exists_getElem?_eq_some d.rows i hilt
    have hr : r ∈ d.rows := List.getElem?_mem hi
    have hlen : r.length = d.dtypes.length := wfB_row_length d hwf r hr
    obtain ⟨x, hx⟩ : ∃ x, r[j]? = some x :=
      exists_getElem?_eq_some r j (by omega)
    have hz := zipWith_dtypes_getElem? (fillCellD v) d.dtypes r j dt x hj hx
    have hcell : d.cell i j = x := by simp [Dataset.cell, hi, hx]
    constructor
    · intro hmiss
      rw [hcell] at hmiss
      subst hmiss
      simp [Dataset.cell, hi, List.getElem?_map, hz, fillCellD, hdt]
    · intro hnmiss
      rw [hcell] at hnmiss
      simp [Dataset.cell, hi, List.getElem?_map, hz, hcell, fillCellD, hdt, hnmiss, hx]

/-- Witness for C1 on the example dataset with fill value `Unknown`. -/
theorem C1_fill_non_numeric_only_witness :
    ∃ d', handle_missing_values exampleCleaner "fill" (some (Cell.str "Unknown"))
        = Except.ok { exampleCleaner with data := some d' } ∧
      d'.names = exampleDataset.names ∧ d'.dtypes = exampleDataset.dtypes ∧
      d'.rows.length = exampleDataset.rows.length ∧
      ∀ j dt, exampleDataset.dtypes[j]? = some dt →
        (dt = Dtype.numeric → ∀ i, d'.cell i j = exampleDataset.cell i j) ∧
        (dt ≠ Dtype.numeric → ∀ i, i < exampleDataset.rows.length →
          (exampleDataset.cell i j = Cell.missing → d'.cell i j = Cell.str "Unknown") ∧
          (exampleDataset.cell i j ≠ Cell.missing → d'.cell i j = exampleDataset.cell i j)) :=
  C1_fill_non_numeric_only exampleCleaner exampleDataset (Cell.str "Unknown") rfl (by decide)

/-! ### Claim C10 -/

/-- C10: `normalize_categoricals` does not preserve missingness — on a loaded
dataset, every missing cell of an object-dtype column becomes the literal
string `nan` (the cell is coerced to text, stripped and lowercased) instead of
staying missing. -/
theorem C10_normalize_missing_becomes_nan (c : DataCleaner) (d : Dataset)
    (h : c.data = some d) (hwf : d.wfB = true) :
    ∃ d', normalize_categoricals c = Except.ok { c with data := some d' } ∧
      d'.names = d.names ∧ d'.dtypes = d.dtypes ∧ d'.rows.length = d.rows.length ∧
      ∀ i j, i < d.rows.length → d.dtypes[j]? = some Dtype.object →
        d.cell i j = Cell.missing →
          d'.cell i j = Cell.str "nan" ∧
          d'.cell i j = Cell.str (lowerString (pyStripStr (cellToPyStr Cell.missing))) := by
  refine ⟨{ d with rows := d.rows.map (fun r =>
      List.zipWith (fun dt x => if dt = Dtype.object then normalizeCell x else x) d.dtypes r) },
    by simp [normalize_categoricals, h], rfl, rfl, by simp, ?_⟩
  intro i j hilt hj hmiss
  have hjlt : j < d.dtypes.length := by
    rcases List.getElem?_eq_some.mp hj with ⟨hlt, _⟩; exact hlt
  obtain ⟨r, hi⟩ : ∃ r, d.rows[i]? = some r :=
    exists_getElem?_eq_some d.rows i hilt
  have hr : r ∈ d.rows := List.getElem?_mem hi
  have hlen : r.length = d.dtypes.length := wfB_row_length d hwf r hr
  obtain ⟨x, hx⟩ : ∃ x, r[j]? = some x :=
    exists_getElem?_eq_some r j (by omega)
  have hcell : d.cell i j = x := by simp [Dataset.cell, hi, hx]
  rw [hcell] at hmiss
  subst hmiss
  have hz := zipWith_dtypes_getElem?
    (fun dt x => if dt = Dtype.object then normalizeCell x else x) d.dtypes r j
    Dtype.object Cell.missing hj hx
  have hnan : normalizeCell Cell.missing = Cell.str "nan" := by decide
  have hnan2 : Cell.str (lowerString (pyStripStr (cellToPyStr Cell.missing))) = Cell.str "nan" := by
    decide
  constructor
  · simp [Dataset.cell, hi, List.getElem?_map, hz, hnan]
  · rw [hnan2]
    simp [Dataset.cell, hi, List.getElem?_map, hz, hnan]

/-- Witness for C10 on the example dataset (its missing age cell is numeric,
so use a dataset with a missing object cell). -/
theorem C10_normalize_missing_becomes_nan_witness :
    ∃ d', normalize_categoricals
        { file := "t.csv", data := some (readCsv ["a"] [[""], ["x"]]) }
        = Except.ok { file := "t.csv", data := some d' } ∧
      d'.names = (readCsv ["a"] [[""], ["x"]]).names ∧
      d'.dtypes = (readCsv ["a"] [[""], ["x"]]).dtypes ∧
      d'.rows.length = (readCsv ["a"] [[""], ["x"]]).rows.length ∧
      ∀ i j, i < (readCsv ["a"] [[""], ["x"]]).rows.length →
        (readCsv ["a"] [[""], ["x"]]).dtypes[j]? = some Dtype.object →
        (readCsv ["a"] [[""], ["x"]]).cell i j = Cell.missing →
          d'.cell i j = Cell.str "nan" ∧
          d'.cell i j = Cell.str (lowerString (pyStripStr (cellToPyStr Cell.missing))) :=
  C10_normalize_missing_becomes_nan
    { file := "t.csv", data := some (readCsv ["a"] [[""], ["x"]]) }
    (readCsv ["a"] [[""], ["x"]]) rfl (by decide)

/-! ### Claim C2: the spec's example pipeline run

The example CSV (header `Name`, ` Age `, rows `Alice,` / `alice,30`) loads
with an object `Name` column and a *numeric* ` Age ` column (its non-empty
entries all parse as integers), so `fill` skips the age column: the empty age
cell stays missing, and the two rows stay distinct under `remove_duplicates`. -/

/-- Stage 1 of the example run: `standardize_columns`. -/
def exampleStep1 : Except CleanError DataCleaner :=
  standardize_columns exampleCleaner

/-- Stage 2: `handle_missing_values('fill', "Unknown")`. -/
def exampleStep2 : Except CleanError DataCleaner :=
  exampleStep1.bind (fun c => handle_missing_values c "fill" (some (Cell.str "Unknown")))

/-- Stage 3: `normalize_categoricals`. -/
def exampleStep3 : Except CleanError DataCleaner :=
  exampleStep2.bind normalize_categoricals

/-- Stage 4: `remove_duplicates`. -/
def exampleStep4 : Except CleanError DataCleaner :=
  exampleStep3.bind remove_duplicates

/-- Counterexample to C2: in the example pipeline, after the `fill` stage the
empty age cell is NOT `"Unknown"` (it is still missing, because the age column
is inferred numeric and `fill` skips numeric columns), and `remove_duplicates`
does NOT leave exactly one row (the rows still differ in the age column). -/
theorem C2_example_pipeline_counterexample :
    (stageData exampleStep2).map (fun d => d.cell 0 1) ≠ some (Cell.str "Unknown") ∧
    (stageData exampleStep4).map (fun d => d.rows.length) ≠ some 1 := by
  constructor <;> decide

/-- C2 amended: in the example pipeline the column names do become `name` and
`age`, and both name cells do become `alice`; but the empty age cell survives
`fill` as a missing value (the age column is inferred numeric), so
`remove_duplicates` keeps both rows. -/
theorem C2_example_pipeline_amended :
    (stageData exampleStep1).map Dataset.names = some ["name", "age"] ∧
    (stageData exampleStep2).map (fun d => d.cell 0 1) = some Cell.missing ∧
    (stageData exampleStep3).map (fun d => (d.cell 0 0, d.cell 1 0))
      = some (Cell.str "alice", Cell.str "alice") ∧
    (stageData exampleStep4).map (fun d => d.rows.length) = some 2 := by
  refine ⟨by decide, by decide, by decide, by decide⟩

/-! ### Claim C4: idempotence of column standardization -/

/-- The character map applied by `standardizeName` after the strip. -/
def stdChar (c : Char) : Char := subUnderscore (lowerChar c)

theorem standardizeName_eq (s : String) :
    standardizeName s = ⟨(pyStrip s.data).map stdChar⟩ := rfl

theorem toNat_ofNat_le (m : Nat) (h : m ≤ 122) : (Char.ofNat m).toNat = m := by
  have hv : m.isValidChar := Or.inl (by omega)
  rw [Char.ofNat, dif_pos hv]
  rfl

theorem ws_false_of_toNat (c : Char)
    (h32 : c.toNat ≠ 32) (h9 : c.toNat ≠ 9) (h13 : c.toNat ≠ 13) (h10 : c.toNat ≠ 10) :
    c.isWhitespace = false := by
  have e1 : c ≠ ' ' := fun h => h32 (by rw [h]; rfl)
  have e2 : c ≠ '\t' := fun h => h9 (by rw [h]; rfl)
  have e3 : c ≠ '\x0d' := fun h => h13 (by rw [h]; rfl)
  have e4 : c ≠ '\n' := fun h => h10 (by rw [h]; rfl)
  simp [Char.isWhitespace, e1, e2, e3, e4]

theorem lowerChar_idem (c : Char) : lowerChar (lowerChar c) = lowerChar c := by
  by_cases h : 65 ≤ c.toNat ∧ c.toNat ≤ 90
  · have ht : (Char.ofNat (c.toNat + 32)).toNat = c.toNat + 32 := toNat_ofNat_le _ (by omega)
    simp only [lowerChar, if_pos h, ht]
    rw [if_neg (by omega)]
  · simp only [lowerChar, if_neg h]

theorem lowerChar_eq_space (c : Char) (h : lowerChar c = ' ') : c = ' ' := by
  by_cases hu : 65 ≤ c.toNat ∧ c.toNat ≤ 90
  · exfalso
    have ht : (Char.ofNat (c.toNat + 32)).toNat = c.toNat + 32 := toNat_ofNat_le _ (by omega)
    have := congrArg Char.toNat h
    rw [lowerChar, if_pos hu, ht] at this
    have h32 : (' ' : Char).toNat = 32 := rfl
    omega
  · rwa [lowerChar, if_neg hu] at h

theorem isWhitespace_lowerChar (c : Char) :
    (lowerChar c).isWhitespace = c.isWhitespace := by
  by_cases hu : 65 ≤ c.toNat ∧ c.toNat ≤ 90
  · have ht : (Char.ofNat (c.toNat + 32)).toNat = c.toNat + 32 := toNat_ofNat_le _ (by omega)
    rw [lowerChar, if_pos hu]
    rw [ws_false_of_toNat c (by omega) (by omega) (by omega) (by omega),
      ws_false_of_toNat _ (by omega) (by omega) (by omega) (by omega)]
  · rw [lowerChar, if_neg hu]

theorem isWhitespace_stdChar (c : Char) (h : c.isWhitespace = false) :
    (stdChar c).isWhitespace = false := by
  by_cases hsp : lowerChar c = ' '
  · have := lowerChar_eq_space c hsp
    subst this
    simp at h
  · rw [stdChar, subUnderscore, if_neg hsp, isWhitespace_lowerChar]
    exact h

theorem stdChar_idem (c : Char) : stdChar (stdChar c) = stdChar c := by
  by_cases hsp : lowerChar c = ' '
  · have h1 : stdChar c = '_' := by rw [stdChar, subUnderscore, if_pos hsp]
    rw [h1]
    decide
  · have h1 : stdChar c = lowerChar c := by rw [stdChar, subUnderscore, if_neg hsp]
    rw [h1, stdChar, lowerChar_idem, subUnderscore, if_neg hsp]

theorem dropWhile_cons_eq_self (p : Char → Bool) (c : Char) (l : List Char)
    (h : (c :: l).dropWhile p = c :: l) : p c = false := by
  by_cases hc : p c = true
  · exfalso
    rw [List.dropWhile_cons, if_pos hc] at h
    have := (List.dropWhile_suffix (l := l) p).sublist.length_le
    have := congrArg List.length h
    simp at this
    omega
  · simpa using hc

theorem dropWhile_map_eq_self (p : Char → Bool) (g : Char → Char)
    (hg : ∀ c, p c = false → p (g c) = false) (l : List Char)
    (h : l.dropWhile p = l) : (l.map g).dropWhile p = l.map g := by
  cases l with
  | nil => rfl
  | cons c l =>
    have hc : p c = false := dropWhile_cons_eq_self p c l h
    simp [List.dropWhile_cons, hg c hc]

theorem dropWhile_dropWhile (p : Char → Bool) (l : List Char) :
    (l.dropWhile p).dropWhile p = l.dropWhile p := by
  induction l with
  | nil => rfl
  | cons c l ih =>
    by_cases hc : p c = true
    · simp [List.dropWhile_cons, hc, ih]
    · simp at hc
      simp [List.dropWhile_cons, hc]

theorem dropWhile_of_prefix (p : Char → Bool) (u v : List Char)
    (hu : u.dropWhile p = u) (hv : v <+: u) : v.dropWhile p = v := by
  cases v with
  | nil => rfl
  | cons a v' =>
    rcases hv with ⟨t, ht⟩
    subst ht
    have ha : p a = false := dropWhile_cons_eq_self p a (v' ++ t) hu
    simp [List.dropWhile_cons, ha]

/-- Both ends of the list are free of `p`-characters. -/
def NoEnds (p : Char → Bool) (l : List Char) : Prop :=
  l.dropWhile p = l ∧ l.reverse.dropWhile p = l.reverse

theorem pyStrip_eq_self_of_noEnds (l : List Char) (h : NoEnds Char.isWhitespace l) :
    pyStrip l = l := by
  rw [pyStrip, h.1, h.2, List.reverse_reverse]

theorem noEnds_pyStrip (l : List Char) : NoEnds Char.isWhitespace (pyStrip l) := by
  constructor
  · have hu : (l.dropWhile Char.isWhitespace).dropWhile Char.isWhitespace
        = l.dropWhile Char.isWhitespace := dropWhile_dropWhile _ l
    apply dropWhile_of_prefix Char.isWhitespace (l.dropWhile Char.isWhitespace) _ hu
    rw [pyStrip]
    have hs : ((l.dropWhile Char.isWhitespace).reverse.dropWhile Char.isWhitespace)
        <:+ (l.dropWhile Char.isWhitespace).reverse := List.dropWhile_suffix _
    rw [← List.reverse_prefix] at hs
    simpa using hs
  · rw [pyStrip, List.reverse_reverse]
    exact dropWhile_dropWhile _ _

theorem noEnds_map_stdChar (l : List Char) (h : NoEnds Char.isWhitespace l) :
    NoEnds Char.isWhitespace (l.map stdChar) := by
  have hg : ∀ c, Char.isWhitespace c = false → Char.isWhitespace (stdChar c) = false :=
    fun c hc => isWhitespace_stdChar c hc
  constructor
  · exact dropWhile_map_eq_self _ _ hg l h.1
  · rw [← List.map_reverse]
    exact dropWhile_map_eq_self _ _ hg l.reverse h.2

/-- Core of C4: `standardizeName` is idempotent. -/
theorem standardizeName_idem (s : String) :
    standardizeName (standardizeName s) = standardizeName s := by
  have hfix : pyStrip ((pyStrip s.data).map stdChar) = (pyStrip s.data).map stdChar :=
    pyStrip_eq_self_of_noEnds _ (noEnds_map_stdChar _ (noEnds_pyStrip s.data))
  have hdata : (standardizeName s).data = (pyStrip s.data).map stdChar := rfl
  rw [standardizeName_eq (standardizeName s), hdata, hfix, List.map_map,
    standardizeName_eq s]
  congr 1
  exact List.map_congr_left (fun c _ => stdChar_idem c)

/-- C4: `standardize_columns` is idempotent — applying it twice yields the same
column names as applying it once; one application maps every name through
strip, lowercase, and space-to-underscore replacement. -/
theorem C4_standardize_columns_idempotent (c : DataCleaner) (d : Dataset)
    (h : c.data = some d) :
    ∃ c1 c2 : DataCleaner, standardize_columns c = Except.ok c1 ∧
      standardize_columns c1 = Except.ok c2 ∧
      ∃ d1 d2 : Dataset, c1.data = some d1 ∧ c2.data = some d2 ∧
        d2.names = d1.names ∧ d1.names = d.names.map standardizeName := by
  refine ⟨{ c with data := some { d with names := d.names.map standardizeName } },
    { c with data := some { d with names := (d.names.map standardizeName).map standardizeName } },
    by simp [standardize_columns, h], by simp [standardize_columns], ?_⟩
  refine ⟨_, _, rfl, rfl, ?_, rfl⟩
  rw [List.map_map]
  exact List.map_congr_left (fun s _ => standardizeName_idem s)

/-- Witness for C4 on the example dataset. -/
theorem C4_standardize_columns_idempotent_witness :
    ∃ c1 c2 : DataCleaner, standardize_columns exampleCleaner = Except.ok c1 ∧
      standardize_columns c1 = Except.ok c2 ∧
      ∃ d1 d2 : Dataset, c1.data = some d1 ∧ c2.data = some d2 ∧
        d2.names = d1.names ∧ d1.names = exampleDataset.names.map standardizeName :=
  C4_standardize_columns_idempotent exampleCleaner exampleDataset rfl

/-! ### Claim C3: properties of duplicate removal -/

/-- Rendering of the spec's description of `removeDuplicates`: keep exactly the
rows that are not an exact duplicate of an earlier row (all columns equal),
i.e. keep position `i` iff the row at `i` does not occur among the first `i`
rows; survivors stay in original order. -/
def keepFirstRows (rows : List (List Cell)) : List (List Cell) :=
  ((List.range rows.length).filter
      (fun i => decide (rows.getD i [] ∉ rows.take i))).map (fun i => rows.getD i [])

/-- `keepFirstRows` generalized by a set of already-seen rows. -/
def keepFirstRowsFrom (seen rows : List (List Cell)) : List (List Cell) :=
  ((List.range rows.length).filter
      (fun i => decide (rows.getD i [] ∉ seen ∧ rows.getD i [] ∉ rows.take i))).map
    (fun i => rows.getD i [])

theorem keepFirstRows_eq_from_nil (rows : List (List Cell)) :
    keepFirstRows rows = keepFirstRowsFrom [] rows := by
  unfold keepFirstRows keepFirstRowsFrom
  congr 1
  apply List.filter_congr
  intro i _
  simp

theorem keepFirstRowsFrom_cons (seen : List (List Cell)) (x : List Cell)
    (xs : List (List Cell)) :
    keepFirstRowsFrom seen (x :: xs) =
      (if x ∈ seen then [] else [x]) ++ keepFirstRowsFrom (x :: seen) xs := by
  unfold keepFirstRowsFrom
  rw [List.length_cons, List.range_succ_eq_map, List.filter_cons]
  have htail : ((List.range xs.length).map Nat.succ).filter
        (fun i => decide ((x :: xs).getD i [] ∉ seen ∧ (x :: xs).getD i [] ∉ (x :: xs).take i))
      = ((List.range xs.length).filter
        (fun i => decide (xs.getD i [] ∉ (x :: seen) ∧ xs.getD i [] ∉ xs.take i))).map Nat.succ := by
    rw [List.filter_map]
    congr 1
    apply List.filter_congr
    intro i _
    simp only [Function.comp_apply, List.getD_cons_succ, List.take_succ_cons,
      decide_eq_decide, List.mem_cons, not_or]
    tauto
  by_cases hx : x ∈ seen
  · rw [if_neg (by simp [hx]), if_pos hx, htail, List.nil_append, List.map_map]
    rfl
  · rw [if_pos (by simp [hx]), if_neg hx, htail, List.map_cons, List.map_map]
    simp only [List.getD_cons_zero, List.singleton_append]
    rfl

theorem keepFirstRowsFrom_mem_absorb (seen : List (List Cell)) (x : List Cell)
    (xs : List (List Cell)) (hx : x ∈ seen) :
    keepFirstRowsFrom (x :: seen) xs = keepFirstRowsFrom seen xs := by
  unfold keepFirstRowsFrom
  congr 1
  apply List.filter_congr
  intro i _
  simp only [decide_eq_decide, List.mem_cons, not_or]
  constructor
  · rintro ⟨⟨_, hs⟩, ht⟩
    exact ⟨hs, ht⟩
  · rintro ⟨hs, ht⟩
    exact ⟨⟨fun he => hs (he ▸ hx), hs⟩, ht⟩

theorem dedupFirstAux_eq_keepFirstRowsFrom (l : List (List Cell)) :
    ∀ seen, dedupFirstAux seen l = keepFirstRowsFrom seen l := by
  induction l with
  | nil => intro seen; rfl
  | cons x xs ih =>
    intro seen
    rw [keepFirstRowsFrom_cons]
    by_cases hx : x ∈ seen
    · simp [dedupFirstAux, hx, ih, keepFirstRowsFrom_mem_absorb seen x xs hx]
    · simp [dedupFirstAux, hx, ih]

theorem dedupFirst_eq_keepFirstRows (rows : List (List Cell)) :
    dedupFirst rows = keepFirstRows rows := by
  rw [keepFirstRows_eq_from_nil, dedupFirst]
  exact dedupFirstAux_eq_keepFirstRowsFrom rows []

theorem dedupFirstAux_sublist {α : Type} [DecidableEq α] (l : List α) :
    ∀ seen, (dedupFirstAux seen l).Sublist l := by
  induction l with
  | nil => intro seen; exact List.Sublist.refl []
  | cons x xs ih =>
    intro seen
    by_cases hx : x ∈ seen
    · rw [dedupFirstAux, if_pos hx]
      exact (ih seen).cons x
    · rw [dedupFirstAux, if_neg hx]
      exact (ih (x :: seen)).cons₂ x

theorem dedupFirstAux_not_mem_seen {α : Type} [DecidableEq α] (l : List α) :
    ∀ seen y, y ∈ dedupFirstAux seen l → y ∉ seen := by
  induction l with
  | nil => intro seen y hy; simp [dedupFirstAux] at hy
  | cons x xs ih =>
    intro seen y hy
    by_cases hx : x ∈ seen
    · rw [dedupFirstAux, if_pos hx] at hy
      exact ih seen y hy
    · rw [dedupFirstAux, if_neg hx] at hy
      rcases List.mem_cons.mp hy with h | h
      · subst h; exact hx
      · intro hs
        exact ih (x :: seen) y h (List.mem_cons_of_mem x hs)

theorem dedupFirstAux_nodup {α : Type} [DecidableEq α] (l : List α) :
    ∀ seen, (dedupFirstAux seen l).Nodup := by
  induction l with
  | nil => intro seen; exact List.nodup_nil
  | cons x xs ih =>
    intro seen
    by_cases hx : x ∈ seen
    · rw [dedupFirstAux, if_pos hx]; exact ih seen
    · rw [dedupFirstAux, if_neg hx]
      refine List.nodup_cons.mpr ⟨?_, ih (x :: seen)⟩
      intro hmem
      exact dedupFirstAux_not_mem_seen xs (x :: seen) x hmem (List.mem_cons_self x seen)

/-- C3: on a loaded dataset, `remove_duplicates` leaves no two identical rows,
returns a subsequence of the original rows (original relative order), and keeps
exactly the first occurrence of each set of identical rows. -/
theorem C3_remove_duplicates_first_occurrence (c : DataCleaner) (d : Dataset)
    (h : c.data = some d) :
    ∃ d', remove_duplicates c = Except.ok { c with data := some d' } ∧
      d'.names = d.names ∧ d'.dtypes = d.dtypes ∧
      d'.rows.Nodup ∧ d'.rows.Sublist d.rows ∧ d'.rows = keepFirstRows d.rows := by
  refine ⟨{ d with rows := dedupFirst d.rows }, by simp [remove_duplicates, h],
    rfl, rfl, dedupFirstAux_nodup d.rows [], dedupFirstAux_sublist d.rows [],
    dedupFirst_eq_keepFirstRows d.rows⟩

/-- Witness for C3 on a table with duplicated rows. -/
theorem C3_remove_duplicates_first_occurrence_witness :
    ∃ d', remove_duplicates
        { file := "t.csv", data := some (readCsv ["a"] [["x"], ["x"], ["y"]]) }
        = Except.ok { file := "t.csv", data := some d' } ∧
      d'.names = (readCsv ["a"] [["x"], ["x"], ["y"]]).names ∧
      d'.dtypes = (readCsv ["a"] [["x"], ["x"], ["y"]]).dtypes ∧
      d'.rows.Nodup ∧ d'.rows.Sublist (readCsv ["a"] [["x"], ["x"], ["y"]]).rows ∧
      d'.rows = keepFirstRows (readCsv ["a"] [["x"], ["x"], ["y"]]).rows :=
  C3_remove_duplicates_first_occurrence
    { file := "t.csv", data := some (readCsv ["a"] [["x"], ["x"], ["y"]]) }
    (readCsv ["a"] [["x"], ["x"], ["y"]]) rfl

/-! ### Claim C5: date-parse failures are swallowed locally -/

/-- C5: on a loaded dataset, `convert_data_types` always succeeds (a date-parse
failure is never propagated to the caller), and for any column whose name
contains `date` (case-insensitively) on which the timestamp parse of the whole
column fails, that column's values are left exactly as they were. -/
theorem C5_date_parse_failure_swallowed (c : DataCleaner) (d : Dataset) (j : Nat)
    (name : String) (h : c.data = some d) (hn : d.names[j]? = some name)
    (hdn : isDateName name = true)
    (hf : (colCells d j).mapM parseDateCell = none) :
    ∃ d', convert_data_types c = Except.ok { c with data := some d' } ∧
      d'.names = d.names ∧ ∀ i, d'.cell i j = d.cell i j := by
  refine ⟨applyDatePass (convertDtypes d), by simp [convert_data_types, h], rfl, ?_⟩
  intro i
  have hname : (convertDtypes d).names.getD j "" = name := by
    show d.names.getD j "" = name
    rw [List.getD_eq_getElem?_getD, hn]
    rfl
  have hcol : colCells (convertDtypes d) j = colCells d j := rfl
  have hres : dateColResult (convertDtypes d) j = none := by
    rw [dateColResult, hname, if_pos hdn, hcol, hf]
  show ((((convertDtypes d).rows.mapIdx _)[i]?).bind (fun r => r[j]?)).getD Cell.missing = _
  have hrows : (convertDtypes d).rows = d.rows := rfl
  cases hi : d.rows[i]? with
  | none =>
    simp [Dataset.cell, applyDatePass, List.getElem?_mapIdx, hrows, hi]
  | some r =>
    simp only [Dataset.cell, applyDatePass, List.getElem?_mapIdx, hrows, hi,
      Option.map_some', Option.some_bind]
    cases hx : r[j]? with
    | none => simp [List.getElem?_mapIdx, hx]
    | some x => simp [List.getElem?_mapIdx, hx, hres]

/-- Witness for C5: a `date`-named column of non-date text survives
`convert_data_types` unchanged. -/
theorem C5_date_parse_failure_swallowed_witness :
    ∃ d', convert_data_types
        { file := "t.csv", data := some (readCsv ["date"] [["garbage"], ["x"]]) }
        = Except.ok { file := "t.csv", data := some d' } ∧
      d'.names = (readCsv ["date"] [["garbage"], ["x"]]).names ∧
      ∀ i, d'.cell i 0 = (readCsv ["date"] [["garbage"], ["x"]]).cell i 0 :=
  C5_date_parse_failure_swallowed
    { file := "t.csv", data := some (readCsv ["date"] [["garbage"], ["x"]]) }
    (readCsv ["date"] [["garbage"], ["x"]]) 0 "date" rfl (by decide) (by decide) (by decide)

/-! ### Claim C8, stage A: decimal round trip -/

